import Mathlib

/-!
Verification of the metadata-provider layer of `metaflow/metadata/metadata.py`
(class `MetadataProvider`): the `get_object` type/aggregation gate, attempt
parsing, the tag filter `_apply_filter`, attempt reconstruction
`_reconstruct_metadata_for_attempt`, sticky-tag state and the record builders
`_artifacts_to_json` / `_metadata_to_json`.

Modelling conventions:
- Python dicts of filter kinds become association lists `List (String × String)`
  in insertion order (Python preserves it); a `None` filters argument is `none`.
- Metadata rows handled by the query-side helpers are a structure holding the
  fields those helpers read (`field_name`, `value`, `tags`, `system_tags`,
  `ts_epoch`).  The source stores `value` as a string and converts with
  `int()`; rows with `field_name == 'attempt'` always carry an integer value,
  so the model keeps the integer directly.  `ts_epoch` is a millisecond
  timestamp produced by `int(round(time.time() * 1000))`, hence a `Nat`.
- Python `set` state (sticky tags) is modelled as a list considered up to
  membership; `set.update` becomes list append.
- Effects (current time, username) become explicit parameters.
-/

namespace Metaflow

/-- One metadata row, as read by `_apply_filter` and
`_reconstruct_metadata_for_attempt`.  `obj.get('tags', [])` /
`obj.get('system_tags', [])` with a missing key are represented by `[]`. -/
structure MetadataRecord where
  field_name : String
  value : Int
  ts_epoch : Nat
  tags : List String
  system_tags : List String
deriving DecidableEq, Repr

/-- One iteration of the loop body of `MetadataProvider._apply_filter`
(lines 526-540): three independent `if key == ...` blocks each append the
records of `starting_point` passing their test to a fresh `result`; the keys
are distinct strings so at most one block fires, and an unrecognized key
leaves `result` empty. -/
def apply_filter_step (starting_point : List MetadataRecord) (key value : String) :
    List MetadataRecord :=
  (if key = "any_tags" then
    starting_point.filter (fun obj => decide (value ∈ obj.tags) || decide (value ∈ obj.system_tags))
  else [])
  ++ (if key = "tags" then
    starting_point.filter (fun obj => decide (value ∈ obj.tags))
  else [])
  ++ (if key = "system_tags" then
    starting_point.filter (fun obj => decide (value ∈ obj.system_tags))
  else [])

/-- The `for key, value in filters.items()` loop of `_apply_filter`:
each iteration replaces `starting_point` with the records it kept. -/
def apply_filter_loop : List MetadataRecord → List (String × String) → List MetadataRecord
  | starting_point, [] => starting_point
  | starting_point, (key, value) :: rest =>
      apply_filter_loop (apply_filter_step starting_point key value) rest

/-- `MetadataProvider._apply_filter` (lines 520-541). `filters is None`
returns the input unchanged. -/
def apply_filter (elts : List MetadataRecord) (filters : Option (List (String × String))) :
    List MetadataRecord :=
  match filters with
  | none => elts
  | some fs => apply_filter_loop elts fs

/-- Drops the literal character sequence `lit` from the front of `cs`,
returning the remainder; `none` when `cs` does not start with `lit`. -/
def dropLit : List Char → List Char → Option (List Char)
  | [], cs => some cs
  | _ :: _, [] => none
  | l :: ls, c :: cs => if l = c then dropLit ls cs else none

/-- Decimal value of a digit run (used after the digits were checked). -/
def digitsToNat (cs : List Char) : Nat :=
  cs.foldl (fun acc c => acc * 10 + (c.toNat - 48)) 0

/-- `attempt_id_re.match t` for `attempt_id_re = re.compile(r"attempt_id:([0-9]+)")`
(line 18): a prefix match requiring the literal `attempt_id:` followed by at
least one digit; the (greedy) group is the maximal digit run, returned as its
integer value. -/
def attempt_tag_value (t : String) : Option Nat :=
  match dropLit "attempt_id:".data t.data with
  | none => none
  | some rest =>
      let ds := rest.takeWhile Char.isDigit
      if ds.isEmpty then none else some (digitsToNat ds)

/-- The `for t in all_tags` scan of `_reconstruct_metadata_for_attempt`
(lines 554-562): the first tag matching `attempt_id_re` decides (the loop
breaks there); `none` when no tag matches (the loop's `else` branch). -/
def first_attempt_tag : List String → Option Nat
  | [] => none
  | t :: ts =>
      match attempt_tag_value t with
      | some n => some n
      | none => first_attempt_tag ts

/-- The `attempts_start` dict of `_reconstruct_metadata_for_attempt`
(lines 546-550): maps `int(v['value'])` to `v['ts_epoch']` for rows with
`field_name == 'attempt'`; a later row overwrites an earlier one, so the
lookup returns the last matching row's timestamp. -/
def attempts_start : List MetadataRecord → Int → Option Nat
  | [], _ => none
  | v :: vs, k =>
      match attempts_start vs k with
      | some ts => some ts
      | none => if v.field_name = "attempt" ∧ v.value = k then some v.ts_epoch else none

/-- The far-future default for `end_ts` (line 570). -/
def farFuture : Nat := 32503680000000

/-- `MetadataProvider._reconstruct_metadata_for_attempt` (lines 543-574).
When every row carries an `attempt_id:<int>` tag, keep exactly the rows whose
first matching tag equals `attempt_id`; otherwise fall back to the timestamp
window `[attempts_start[attempt_id], attempts_start[attempt_id + 1])`,
returning `[]` when the attempt never started. -/
def reconstruct_metadata_for_attempt (all_metadata : List MetadataRecord)
    (attempt_id : Int) : List MetadataRecord :=
  if all_metadata.all (fun v => (first_attempt_tag v.tags).isSome) then
    all_metadata.filter (fun v =>
      match first_attempt_tag v.tags with
      | some n => decide ((n : Int) = attempt_id)
      | none => false)
  else
    match attempts_start all_metadata attempt_id with
    | none => []
    | some start_ts =>
        let end_ts := (attempts_start all_metadata (attempt_id + 1)).getD farFuture
        all_metadata.filter (fun v =>
          decide (start_ts ≤ v.ts_epoch) && decide (v.ts_epoch < end_ts))

/-- Python `int(s)` on a string, as used on the `attempt` argument of
`get_object` (line 390): surrounding whitespace is ignored, an optional
sign precedes a non-empty run of decimal digits; anything else raises
`ValueError`, modelled as `none`. -/
def strip_ws (cs : List Char) : List Char :=
  ((cs.dropWhile Char.isWhitespace).reverse.dropWhile Char.isWhitespace).reverse

/-- Non-empty all-digit run parsed to its value. -/
def parse_digit_run (cs : List Char) : Option Nat :=
  if cs ≠ [] ∧ cs.all Char.isDigit then some (digitsToNat cs) else none

/-- See `strip_ws`: the model of Python `int()` on strings. -/
def py_int_of_string (s : String) : Option Int :=
  match strip_ws s.data with
  | [] => none
  | '-' :: rest => (parse_digit_run rest).map (fun n => -(n : Int))
  | '+' :: rest => (parse_digit_run rest).map (fun n => (n : Int))
  | cs => (parse_digit_run cs).map (fun n => (n : Int))

/-- The error taxonomy of `get_object`.  The source raises
`MetaflowInternalError` / `ValueError` with distinct messages; the spec names
the four cases UnknownType (lines 374, 379), InvalidAggregation (lines 376,
382), MetadataScopeViolation (line 386) and InvalidAttempt (lines 392-394). -/
inductive GetObjectError where
  | UnknownType
  | InvalidAggregation
  | MetadataScopeViolation
  | InvalidAttempt
deriving DecidableEq, Repr

/-- The `obj_order` table of `get_object` (lines 361-369). -/
def obj_order : String → Option Nat
  | "root" => some 0
  | "flow" => some 1
  | "run" => some 2
  | "step" => some 3
  | "task" => some 4
  | "artifact" => some 5
  | "metadata" => some 6
  | "self" => some 7
  | _ => none

/-- The validation prefix of `MetadataProvider.get_object` (lines 361-396),
performed before `_get_object_internal` is called, in source order: unknown
`obj_type`, `type_order > 5`, unknown `sub_type`, `type_order >= sub_order`,
metadata outside task, then attempt parsing.  On success it yields
`(type_order, sub_order, attempt_int)`. -/
def get_object_validate (obj_type sub_type : String) (attempt : Option String) :
    Except GetObjectError (Nat × Nat × Option Int) :=
  match obj_order obj_type with
  | none => .error .UnknownType
  | some type_order =>
      if 5 < type_order then .error .InvalidAggregation
      else
        match obj_order sub_type with
        | none => .error .UnknownType
        | some sub_order =>
            if sub_order ≤ type_order then .error .InvalidAggregation
            else if sub_type = "metadata" ∧ obj_type ≠ "task" then
              .error .MetadataScopeViolation
            else
              match attempt with
              | none => .ok (type_order, sub_order, none)
              | some s =>
                  match py_int_of_string s with
                  | none => .error .InvalidAttempt
                  | some i =>
                      if i < 0 then .error .InvalidAttempt
                      else .ok (type_order, sub_order, some i)

/-- `MetadataProvider.get_object` (lines 312-404), with the backend
`_get_object_internal` abstracted as a function argument.  After validation
it delegates to the backend; the result is reconstructed per attempt only
when an attempt was given and the sub type is metadata (`sub_order == 6`). -/
def get_object
    (get_object_internal :
      String → Nat → String → Nat → Option (List (String × String)) → Option Int →
        List MetadataRecord)
    (obj_type sub_type : String) (filters : Option (List (String × String)))
    (attempt : Option String) : Except GetObjectError (List MetadataRecord) :=
  match get_object_validate obj_type sub_type attempt with
  | .error e => .error e
  | .ok (type_order, sub_order, attempt_int) =>
      let pre_filter :=
        get_object_internal obj_type type_order sub_type sub_order filters attempt_int
      match attempt_int with
      | none => .ok pre_filter
      | some i =>
          if sub_order ≠ 6 then .ok pre_filter
          else .ok (reconstruct_metadata_for_attempt pre_filter i)

/-- The `DataArtifact` namedtuple (lines 12-13).  `url` is `none` for a
missing URL; Python also treats an empty string as falsy in the `location`
computation (line 470). -/
structure DataArtifact where
  name : String
  ds_type : String
  ds_root : String
  url : Option String
  type : String
  sha : String
deriving DecidableEq, Repr

/-- The `MetaDatum` namedtuple (lines 15-16). -/
structure MetaDatum where
  field : String
  value : String
  type : String
  tags : List String
deriving DecidableEq, Repr

/-- The per-instance state of `MetadataProvider` relevant to record building
(`__init__`, lines 576-586): the flow name and the two sticky tag sets.
Python `set`s are modelled as lists up to membership. -/
structure ProviderState where
  flow_name : String
  sticky_tags : List String
  sticky_sys_tags : List String
deriving DecidableEq, Repr

/-- `MetadataProvider.add_sticky_tags` (lines 291-310): `set.update` on each
sticky set; passing `[]` for an argument models Python `None`/empty (the
`if tags:` guard makes both a no-op, as is appending nothing). -/
def add_sticky_tags (s : ProviderState) (tags sys_tags : List String) : ProviderState :=
  { s with
    sticky_tags := s.sticky_tags ++ tags
    sticky_sys_tags := s.sticky_sys_tags ++ sys_tags }

/-- An artifact row as produced by `_artifacts_to_json` (lines 457-473),
fields of the dict literal plus those merged from `_all_obj_elements`
(lines 406-413). -/
structure ArtifactJson where
  run_number : Int
  step_name : String
  task_id : Int
  attempt_id : Int
  name : String
  content_type : String
  type : String
  sha : String
  ds_type : String
  location : String
  flow_id : String
  user_name : String
  tags : List String
  system_tags : List String
  ts_epoch : Nat
deriving DecidableEq, Repr

/-- `MetadataProvider._artifacts_to_json` (lines 457-473).  The tag fields
come from `_all_obj_elements(self.sticky_tags, self.sticky_sys_tags)`
(line 471): every artifact row carries the sticky tag sets current at build
time.  `user` and `now` stand for `get_username()` and
`int(round(time.time() * 1000))`. -/
def artifacts_to_json (s : ProviderState) (user : String) (now : Nat)
    (run_id : Int) (step_name : String) (task_id : Int) (attempt_id : Int)
    (artifacts : List DataArtifact) : List ArtifactJson :=
  artifacts.map (fun art =>
    { run_number := run_id
      step_name := step_name
      task_id := task_id
      attempt_id := attempt_id
      name := art.name
      content_type := art.type
      type := "metaflow.artifact"
      sha := art.sha
      ds_type := art.ds_type
      location :=
        match art.url with
        | some u => if u = "" then ":root:" ++ art.ds_root else u
        | none => ":root:" ++ art.ds_root
      flow_id := s.flow_name
      user_name := user
      tags := s.sticky_tags
      system_tags := s.sticky_sys_tags
      ts_epoch := now })

/-- A metadata row as produced by `_metadata_to_json` (lines 475-487). -/
structure MetadataJson where
  flow_id : String
  run_number : Int
  step_name : String
  task_id : Int
  field_name : String
  type : String
  value : String
  tags : List String
  user_name : String
  ts_epoch : Nat
deriving DecidableEq, Repr

/-- `MetadataProvider._metadata_to_json` (lines 475-487).  The row's tags are
`list(set(datum.tags))` — the datum's own tags deduplicated; the sticky tag
state is not consulted. -/
def metadata_to_json (s : ProviderState) (user : String) (now : Nat)
    (run_id : Int) (step_name : String) (task_id : Int)
    (metadata : List MetaDatum) : List MetadataJson :=
  metadata.map (fun datum =>
    { flow_id := s.flow_name
      run_number := run_id
      step_name := step_name
      task_id := task_id
      field_name := datum.field
      type := datum.type
      value := datum.value
      tags := datum.tags.dedup
      user_name := user
      ts_epoch := now })

/-! ### Helper lemmas about `_apply_filter` -/

lemma apply_filter_step_subset (sp : List MetadataRecord) (key value : String)
    (x : MetadataRecord) (hx : x ∈ apply_filter_step sp key value) : x ∈ sp := by
  unfold apply_filter_step at hx
  rcases List.mem_append.1 hx with h | h
  · rcases List.mem_append.1 h with h1 | h1 <;>
      [skip; skip] <;>
      · split at h1
        · exact List.mem_of_mem_filter h1
        · exact absurd h1 (List.not_mem_nil x)
  · split at h
    · exact List.mem_of_mem_filter h
    · exact absurd h (List.not_mem_nil x)

lemma apply_filter_loop_subset (fs : List (String × String)) :
    ∀ (sp : List MetadataRecord) (x : MetadataRecord),
      x ∈ apply_filter_loop sp fs → x ∈ sp := by
  induction fs with
  | nil => intro sp x hx; exact hx
  | cons kv rest ih =>
      intro sp x hx
      exact apply_filter_step_subset sp kv.1 kv.2 x (ih _ x hx)

lemma apply_filter_step_empty (key value : String) :
    apply_filter_step [] key value = [] := by
  unfold apply_filter_step
  split <;> split <;> split <;> rfl

lemma apply_filter_loop_empty (fs : List (String × String)) :
    apply_filter_loop [] fs = [] := by
  induction fs with
  | nil => rfl
  | cons kv rest ih => simpa [apply_filter_loop, apply_filter_step_empty] using ih

lemma apply_filter_step_unknown (sp : List MetadataRecord) (key value : String)
    (h1 : key ≠ "any_tags") (h2 : key ≠ "tags") (h3 : key ≠ "system_tags") :
    apply_filter_step sp key value = [] := by
  unfold apply_filter_step
  rw [if_neg h1, if_neg h2, if_neg h3]
  rfl

lemma apply_filter_step_tags (sp : List MetadataRecord) (value : String) :
    apply_filter_step sp "tags" value =
      sp.filter (fun obj => decide (value ∈ obj.tags)) := by
  unfold apply_filter_step
  rw [if_neg (by decide), if_pos rfl, if_neg (by decide)]
  simp

lemma apply_filter_step_system_tags (sp : List MetadataRecord) (value : String) :
    apply_filter_step sp "system_tags" value =
      sp.filter (fun obj => decide (value ∈ obj.system_tags)) := by
  unfold apply_filter_step
  rw [if_neg (by decide), if_neg (by decide), if_pos rfl]
  simp

lemma apply_filter_step_any_tags (sp : List MetadataRecord) (value : String) :
    apply_filter_step sp "any_tags" value =
      sp.filter (fun obj => decide (value ∈ obj.tags) || decide (value ∈ obj.system_tags)) := by
  unfold apply_filter_step
  rw [if_pos rfl, if_neg (by decide), if_neg (by decide)]
  simp

/-! ### Example rows used by witnesses -/

def exRec0 : MetadataRecord := ⟨"attempt", 0, 100, ["attempt_id:0"], []⟩

def exRec1 : MetadataRecord := ⟨"x", 0, 150, ["attempt_id:1"], ["sys:a"]⟩

def exRecA0 : MetadataRecord := ⟨"attempt", 0, 100, [], []⟩

def exRecM : MetadataRecord := ⟨"x", 0, 150, [], []⟩

def exRecA1 : MetadataRecord := ⟨"attempt", 1, 200, [], []⟩

def exRecY : MetadataRecord := ⟨"y", 0, 250, [], []⟩

/-! ### Claims about `_apply_filter` -/

/-- C7: for every list of records, `_apply_filter` applied with an absent
(`None`) or empty filters mapping returns the input list unchanged. -/
theorem apply_filter_identity_empty (elts : List MetadataRecord) :
    apply_filter elts none = elts ∧ apply_filter elts (some []) = elts :=
  ⟨rfl, rfl⟩

/-- C10: if the filters mapping contains any key outside
`{any_tags, tags, system_tags}`, `_apply_filter` returns the empty list:
an unrecognized filter kind silently filters out every record. -/
theorem apply_filter_unknown_key_empty (elts : List MetadataRecord)
    (fs : List (String × String))
    (h : ∃ kv ∈ fs, kv.1 ≠ "any_tags" ∧ kv.1 ≠ "tags" ∧ kv.1 ≠ "system_tags") :
    apply_filter elts (some fs) = [] := by
  induction fs generalizing elts with
  | nil => exact absurd h (by simp)
  | cons kv rest ih =>
      obtain ⟨p, hp, hp1, hp2, hp3⟩ := h
      rcases List.mem_cons.1 hp with rfl | hmem
      · show apply_filter_loop (apply_filter_step elts p.1 p.2) rest = []
        rw [apply_filter_step_unknown elts p.1 p.2 hp1 hp2 hp3]
        exact apply_filter_loop_empty rest
      · exact ih (apply_filter_step elts kv.1 kv.2) ⟨p, hmem, hp1, hp2, hp3⟩

/-- C10 witness: a single unrecognized key empties a concrete non-empty
record list. -/
theorem apply_filter_unknown_key_empty_witness :
    apply_filter [exRec0, exRec1] (some [("bogus", "x")]) = [] :=
  apply_filter_unknown_key_empty [exRec0, exRec1] [("bogus", "x")]
    ⟨("bogus", "x"), by decide, by decide, by decide, by decide⟩

lemma apply_filter_step_sublist (sp : List MetadataRecord) (key value : String) :
    (apply_filter_step sp key value).Sublist sp := by
  by_cases h1 : key = "any_tags"
  · subst h1; rw [apply_filter_step_any_tags]; exact List.filter_sublist sp
  · by_cases h2 : key = "tags"
    · subst h2; rw [apply_filter_step_tags]; exact List.filter_sublist sp
    · by_cases h3 : key = "system_tags"
      · subst h3; rw [apply_filter_step_system_tags]; exact List.filter_sublist sp
      · rw [apply_filter_step_unknown sp key value h1 h2 h3]
        exact List.nil_sublist sp

lemma apply_filter_loop_sublist (fs : List (String × String)) :
    ∀ sp : List MetadataRecord, (apply_filter_loop sp fs).Sublist sp := by
  induction fs with
  | nil => intro sp; exact List.Sublist.refl sp
  | cons kv rest ih =>
      intro sp
      exact (ih (apply_filter_step sp kv.1 kv.2)).trans
        (apply_filter_step_sublist sp kv.1 kv.2)

/-- C9: filtering and attempt reconstruction only ever select subsets: the
output of `_apply_filter` and of `_reconstruct_metadata_for_attempt` is a
sublist of the input (records kept unmodified, in order, never duplicated or
synthesized), so every element of the output is an element of the input. -/
theorem query_helpers_select_subsets :
    (∀ (elts : List MetadataRecord) (filters : Option (List (String × String))),
        (apply_filter elts filters).Sublist elts ∧
        ∀ x ∈ apply_filter elts filters, x ∈ elts) ∧
    (∀ (md : List MetadataRecord) (attempt_id : Int),
        (reconstruct_metadata_for_attempt md attempt_id).Sublist md ∧
        ∀ x ∈ reconstruct_metadata_for_attempt md attempt_id, x ∈ md) := by
  constructor
  · intro elts filters
    have hsub : (apply_filter elts filters).Sublist elts := by
      match filters with
      | none => exact List.Sublist.refl elts
      | some fs => exact apply_filter_loop_sublist fs elts
    exact ⟨hsub, fun x hx => hsub.subset hx⟩
  · intro md attempt_id
    have hsub : (reconstruct_metadata_for_attempt md attempt_id).Sublist md := by
      unfold reconstruct_metadata_for_attempt
      split
      · exact List.filter_sublist md
      · split
        · exact List.nil_sublist md
        · exact List.filter_sublist md
    exact ⟨hsub, fun x hx => hsub.subset hx⟩

/-- C9 witness: a concrete filtered selection and a concrete reconstruction
both return elements of the input. -/
theorem query_helpers_select_subsets_witness :
    exRec1 ∈ [exRec0, exRec1] ∧ exRec0 ∈ [exRec0, exRec1] :=
  ⟨(query_helpers_select_subsets.1 [exRec0, exRec1]
        (some [("tags", "attempt_id:1")])).2 exRec1 (by decide),
    (query_helpers_select_subsets.2 [exRec0, exRec1] 0).2 exRec0 (by decide)⟩

/-- C6: for every record list, the kinds `tags`, `system_tags` and `any_tags`
test membership in the user-tag set, the system-tag set and their union
respectively; applying `{tags: a, system_tags: b}` yields exactly the
intersection (membership-wise) of the single-kind applications, and swapping
the two kinds yields the same result list. -/
theorem apply_filter_kind_intersection (elts : List MetadataRecord) (a b : String)
    (r : MetadataRecord) :
    (r ∈ apply_filter elts (some [("tags", a)]) ↔ r ∈ elts ∧ a ∈ r.tags) ∧
    (r ∈ apply_filter elts (some [("system_tags", b)]) ↔ r ∈ elts ∧ b ∈ r.system_tags) ∧
    (r ∈ apply_filter elts (some [("any_tags", a)]) ↔
      r ∈ elts ∧ (a ∈ r.tags ∨ a ∈ r.system_tags)) ∧
    (r ∈ apply_filter elts (some [("tags", a), ("system_tags", b)]) ↔
      (r ∈ apply_filter elts (some [("tags", a)]) ∧
        r ∈ apply_filter elts (some [("system_tags", b)]))) ∧
    apply_filter elts (some [("tags", a), ("system_tags", b)]) =
      apply_filter elts (some [("system_tags", b), ("tags", a)]) := by
  have htags : apply_filter elts (some [("tags", a)]) =
      elts.filter (fun obj => decide (a ∈ obj.tags)) :=
    apply_filter_step_tags elts a
  have hsys : apply_filter elts (some [("system_tags", b)]) =
      elts.filter (fun obj => decide (b ∈ obj.system_tags)) :=
    apply_filter_step_system_tags elts b
  have hany : apply_filter elts (some [("any_tags", a)]) =
      elts.filter (fun obj => decide (a ∈ obj.tags) || decide (a ∈ obj.system_tags)) :=
    apply_filter_step_any_tags elts a
  have hboth : apply_filter elts (some [("tags", a), ("system_tags", b)]) =
      (elts.filter (fun obj => decide (a ∈ obj.tags))).filter
        (fun obj => decide (b ∈ obj.system_tags)) := by
    show apply_filter_loop (apply_filter_step elts "tags" a) [("system_tags", b)] = _
    rw [apply_filter_step_tags]
    exact apply_filter_step_system_tags _ b
  have hswap : apply_filter elts (some [("system_tags", b), ("tags", a)]) =
      (elts.filter (fun obj => decide (b ∈ obj.system_tags))).filter
        (fun obj => decide (a ∈ obj.tags)) := by
    show apply_filter_loop (apply_filter_step elts "system_tags" b) [("tags", a)] = _
    rw [apply_filter_step_system_tags]
    exact apply_filter_step_tags _ a
  refine ⟨?_, ?_, ?_, ?_, ?_⟩
  · rw [htags]; simp [List.mem_filter]
  · rw [hsys]; simp [List.mem_filter]
  · rw [hany]; simp [List.mem_filter]
  · rw [hboth, htags, hsys]; simp [List.mem_filter]; tauto
  · rw [hboth, hswap, List.filter_filter, List.filter_filter]
    exact List.filter_congr (fun x _ => by rw [Bool.and_comm])

/-! ### Helper lemmas about `attempts_start` -/

lemma attempts_start_eq_none_iff (md : List MetadataRecord) (k : Int) :
    attempts_start md k = none ↔
      ∀ v ∈ md, ¬(v.field_name = "attempt" ∧ v.value = k) := by
  induction md with
  | nil => simp [attempts_start]
  | cons v vs ih =>
      unfold attempts_start
      constructor
      · intro h
        intro w hw
        rcases List.mem_cons.1 hw with rfl | hmem
        · intro hcon
          rcases hrest : attempts_start vs k with _ | ts
          · rw [hrest, if_pos hcon] at h; exact Option.some_ne_none _ h
          · rw [hrest] at h; exact Option.some_ne_none _ h
        · rcases hrest : attempts_start vs k with _ | ts
          · exact (ih.1 hrest) w hmem
          · rw [hrest] at h; exact absurd h (Option.some_ne_none _)
      · intro h
        have hrest : attempts_start vs k = none :=
          ih.2 (fun w hw => h w (List.mem_cons_of_mem v hw))
        rw [hrest, if_neg (h v (List.mem_cons_self v vs))]

lemma attempts_start_some_mem (md : List MetadataRecord) (k : Int) (ts : Nat)
    (h : attempts_start md k = some ts) :
    ∃ v ∈ md, v.field_name = "attempt" ∧ v.value = k ∧ v.ts_epoch = ts := by
  induction md with
  | nil => simp [attempts_start] at h
  | cons v vs ih =>
      unfold attempts_start at h
      rcases hrest : attempts_start vs k with _ | ts'
      · rw [hrest] at h
        by_cases hcond : v.field_name = "attempt" ∧ v.value = k
        · rw [if_pos hcond] at h
          exact ⟨v, List.mem_cons_self v vs, hcond.1, hcond.2, Option.some_inj.1 h⟩
        · rw [if_neg hcond] at h
          simp at h
      · rw [hrest] at h
        have hts : ts' = ts := Option.some_inj.1 h
        obtain ⟨w, hw, hfield, hval, hts2⟩ := ih (hts ▸ hrest)
        exact ⟨w, List.mem_cons_of_mem v hw, hfield, hval, hts2⟩

/-! ### Claims about `_reconstruct_metadata_for_attempt` -/

/-- C2: when every record's tag list contains an `attempt_id:<int>` tag,
reconstruction returns exactly the records whose (first) matching tag has
integer value `attempt_id`, in input order — the explicit-tag path, without
the timestamp-window fallback. -/
theorem reconstruct_explicit_tags (md : List MetadataRecord) (attempt_id : Int)
    (h : ∀ v ∈ md, (first_attempt_tag v.tags).isSome) :
    reconstruct_metadata_for_attempt md attempt_id =
      md.filter (fun v =>
        decide ((first_attempt_tag v.tags).map (fun n => (n : Int)) = some attempt_id)) := by
  unfold reconstruct_metadata_for_attempt
  rw [if_pos (List.all_eq_true.2 h)]
  refine List.filter_congr (fun v _ => ?_)
  rcases hft : first_attempt_tag v.tags with _ | n <;> simp [hft]

/-- C2 witness: two explicitly tagged records; the one tagged
`attempt_id:0` is kept for attempt 0. -/
theorem reconstruct_explicit_tags_witness :
    reconstruct_metadata_for_attempt [exRec0, exRec1] 0 = [exRec0] := by
  rw [reconstruct_explicit_tags [exRec0, exRec1] 0 (by decide)]
  decide

/-- C3: when at least one record lacks an `attempt_id:<int>` tag, the
explicitly-tagged selection is discarded: if no record with `field_name`
`'attempt'` and value `attempt_id` exists the result is `[]` (no error);
otherwise the result is exactly the records whose `ts_epoch` lies in
`[start, end)`, where `start` is the timestamp of the `'attempt'` record for
`attempt_id` and `end` is that of the record for `attempt_id + 1` when
present, else the far-future sentinel. -/
theorem reconstruct_legacy_window (md : List MetadataRecord) (attempt_id : Int)
    (h : ∃ v ∈ md, first_attempt_tag v.tags = none) :
    ((∀ v ∈ md, ¬(v.field_name = "attempt" ∧ v.value = attempt_id)) →
        reconstruct_metadata_for_attempt md attempt_id = []) ∧
    (∀ start_ts, attempts_start md attempt_id = some start_ts →
        (∃ v ∈ md, v.field_name = "attempt" ∧ v.value = attempt_id ∧
            v.ts_epoch = start_ts) ∧
        reconstruct_metadata_for_attempt md attempt_id =
          md.filter (fun v =>
            decide (start_ts ≤ v.ts_epoch) &&
            decide (v.ts_epoch < (attempts_start md (attempt_id + 1)).getD farFuture))) := by
  have hlegacy : ¬(md.all (fun v => (first_attempt_tag v.tags).isSome) = true) := by
    obtain ⟨v, hv, hnone⟩ := h
    intro hall
    have := List.all_eq_true.1 hall v hv
    rw [hnone] at this
    exact Bool.false_ne_true this
  constructor
  · intro hnorec
    unfold reconstruct_metadata_for_attempt
    rw [if_neg hlegacy, (attempts_start_eq_none_iff md attempt_id).2 hnorec]
  · intro start_ts hstart
    refine ⟨attempts_start_some_mem md attempt_id start_ts hstart, ?_⟩
    unfold reconstruct_metadata_for_attempt
    rw [if_neg hlegacy, hstart]

/-- C3 witness: four legacy (untagged) records with attempt markers at
timestamps 100 and 200; attempt 0 reconstructs to the records in
`[100, 200)`. -/
theorem reconstruct_legacy_window_witness :
    reconstruct_metadata_for_attempt [exRecA0, exRecM, exRecA1, exRecY] 0 =
      [exRecA0, exRecM] := by
  have h := (reconstruct_legacy_window [exRecA0, exRecM, exRecA1, exRecY] 0
      ⟨exRecA0, by decide, by decide⟩).2 100 (by decide)
  rw [h.2]
  decide

/-! ### The `get_object` type/aggregation gate -/

/-- The success condition of the `get_object` validation gate: both names are
in the order table, `order(obj_type) ≤ 5`, `order(obj_type) < order(sub_type)`,
and `metadata` is accepted as sub type only under `task`. -/
def typeCheckOk (obj_type sub_type : String) : Prop :=
  ∃ a b, obj_order obj_type = some a ∧ obj_order sub_type = some b ∧
    a ≤ 5 ∧ a < b ∧ (sub_type = "metadata" → obj_type = "task")

/-- A well-formed attempt argument: absent, or a string parsing to a
non-negative integer. -/
def validAttemptArg (attempt : Option String) : Prop :=
  ∀ s, attempt = some s → ∃ i, py_int_of_string s = some i ∧ 0 ≤ i

lemma validate_reduce (obj_type sub_type : String) (a b : Nat)
    (h1 : obj_order obj_type = some a) (h2 : obj_order sub_type = some b)
    (ha5 : a ≤ 5) (hab : a < b)
    (hmeta : sub_type = "metadata" → obj_type = "task") (attempt : Option String) :
    get_object_validate obj_type sub_type attempt =
      (match attempt with
       | none => .ok (a, b, none)
       | some s =>
           match py_int_of_string s with
           | none => .error .InvalidAttempt
           | some i =>
               if i < 0 then .error .InvalidAttempt
               else .ok (a, b, some i)) := by
  unfold get_object_validate
  rw [h1]
  simp only
  rw [if_neg (by omega), h2]
  simp only
  rw [if_neg (by omega),
    if_neg (fun hc => hc.2 (hmeta hc.1))]

lemma validate_error_cases (obj_type sub_type : String) (attempt : Option String)
    (h : ¬ typeCheckOk obj_type sub_type) :
    ∃ e, (e = GetObjectError.UnknownType ∨ e = GetObjectError.InvalidAggregation ∨
        e = GetObjectError.MetadataScopeViolation) ∧
      get_object_validate obj_type sub_type attempt = .error e := by
  rcases h1 : obj_order obj_type with _ | a
  · exact ⟨.UnknownType, Or.inl rfl, by unfold get_object_validate; rw [h1]⟩
  · by_cases h5 : 5 < a
    · exact ⟨.InvalidAggregation, Or.inr (Or.inl rfl), by
        unfold get_object_validate; rw [h1]; simp only; rw [if_pos h5]⟩
    · rcases h2 : obj_order sub_type with _ | b
      · exact ⟨.UnknownType, Or.inl rfl, by
          unfold get_object_validate; rw [h1]; simp only; rw [if_neg h5, h2]⟩
      · by_cases hba : b ≤ a
        · exact ⟨.InvalidAggregation, Or.inr (Or.inl rfl), by
            unfold get_object_validate; rw [h1]; simp only
            rw [if_neg h5, h2]; simp only; rw [if_pos hba]⟩
        · by_cases hm : sub_type = "metadata" ∧ obj_type ≠ "task"
          · exact ⟨.MetadataScopeViolation, Or.inr (Or.inr rfl), by
              unfold get_object_validate; rw [h1]; simp only
              rw [if_neg h5, h2]; simp only; rw [if_neg hba, if_pos hm]⟩
          · exact absurd
              ⟨a, b, h1, h2, by omega, by omega,
                fun hs => Decidable.by_contra (fun ho => hm ⟨hs, ho⟩)⟩ h

/-- C1 (amended): for every `(obj_type, sub_type)` pair, any filters, and any
attempt argument that is absent or parses to a non-negative integer,
`get_object` delegates to the backend fetch (succeeds for every backend) iff
both names are in `{root, flow, run, step, task, artifact, metadata, self}`,
`order(obj_type) ≤ 5`, `order(obj_type) < order(sub_type)`, and sub type
`metadata` only under obj type `task`; in every other case it returns one of
the typed errors UnknownType / InvalidAggregation / MetadataScopeViolation,
uniformly in the backend (the backend is never consulted). -/
theorem get_object_type_gate (obj_type sub_type : String) (attempt : Option String)
    (hatt : validAttemptArg attempt) :
    ((∃ v, get_object_validate obj_type sub_type attempt = .ok v) ↔
        typeCheckOk obj_type sub_type) ∧
    (typeCheckOk obj_type sub_type →
      ∀ backend filters, ∃ r, get_object backend obj_type sub_type filters attempt = .ok r) ∧
    (¬ typeCheckOk obj_type sub_type →
      ∃ e, (e = GetObjectError.UnknownType ∨ e = GetObjectError.InvalidAggregation ∨
          e = GetObjectError.MetadataScopeViolation) ∧
        ∀ backend filters, get_object backend obj_type sub_type filters attempt = .error e) := by
  have hok : typeCheckOk obj_type sub_type →
      ∃ v, get_object_validate obj_type sub_type attempt = .ok v := by
    rintro ⟨a, b, h1, h2, ha5, hab, hmeta⟩
    rcases attempt with _ | s
    · exact ⟨(a, b, none), validate_reduce obj_type sub_type a b h1 h2 ha5 hab hmeta none⟩
    · obtain ⟨i, hp, hi⟩ := hatt s rfl
      have hred : get_object_validate obj_type sub_type (some s) =
          (match py_int_of_string s with
           | none => Except.error GetObjectError.InvalidAttempt
           | some j =>
               if j < 0 then Except.error GetObjectError.InvalidAttempt
               else Except.ok (a, b, some j)) :=
        validate_reduce obj_type sub_type a b h1 h2 ha5 hab hmeta (some s)
      refine ⟨(a, b, some i), ?_⟩
      rw [hred, hp]
      show (if i < 0 then Except.error GetObjectError.InvalidAttempt
          else Except.ok (a, b, some i)) = Except.ok (a, b, some i)
      rw [if_neg (by omega)]
  refine ⟨⟨?_, hok⟩, ?_, ?_⟩
  · rintro ⟨v, hv⟩
    by_contra hno
    obtain ⟨e, _, herr⟩ := validate_error_cases obj_type sub_type attempt hno
    rw [herr] at hv
    exact Except.noConfusion hv
  · intro htc backend filters
    obtain ⟨⟨tord, sord, ai⟩, hv⟩ := hok htc
    unfold get_object
    rw [hv]
    rcases ai with _ | i
    · exact ⟨_, rfl⟩
    · show ∃ r, (if sord ≠ 6 then _ else _) = Except.ok r
      split
      · exact ⟨_, rfl⟩
      · exact ⟨_, rfl⟩
  · intro hno
    obtain ⟨e, he, herr⟩ := validate_error_cases obj_type sub_type attempt hno
    exact ⟨e, he, fun backend filters => by unfold get_object; rw [herr]⟩

/-- C1 witness: `obj_type = root`, `sub_type = flow`, no attempt: the gate
passes and the call succeeds for a concrete backend. -/
theorem get_object_type_gate_witness :
    ∃ r, get_object (fun _ _ _ _ _ _ => ([] : List MetadataRecord))
      "root" "flow" none none = Except.ok r :=
  (get_object_type_gate "root" "flow" none (fun s hs => Option.noConfusion hs)).2.1
    ⟨0, 1, rfl, rfl, by omega, by omega, fun h => absurd h (by decide)⟩
    (fun _ _ _ _ _ _ => []) none

/-- C1 counterexample to the claim as stated: with the unparseable attempt
`"abc"` the pair `(root, flow)` satisfies every type/aggregation condition,
yet `get_object` does not delegate — it fails with InvalidAttempt, which is
none of the three errors the claim allows. -/
theorem get_object_type_gate_cex :
    typeCheckOk "root" "flow" ∧
    get_object (fun _ _ _ _ _ _ => ([] : List MetadataRecord))
        "root" "flow" none (some "abc") =
      Except.error GetObjectError.InvalidAttempt ∧
    GetObjectError.InvalidAttempt ≠ GetObjectError.UnknownType ∧
    GetObjectError.InvalidAttempt ≠ GetObjectError.InvalidAggregation ∧
    GetObjectError.InvalidAttempt ≠ GetObjectError.MetadataScopeViolation :=
  ⟨⟨0, 1, rfl, rfl, by omega, by omega, fun h => absurd h (by decide)⟩,
    by rfl, by decide, by decide, by decide⟩

/-- C5: once the type gate passes, a present attempt argument that does not
parse as an integer, or parses to a negative one, makes `get_object` fail
with InvalidAttempt before the backend is reached; an attempt parsing to a
non-negative integer is accepted, and an absent attempt is always
accepted. -/
theorem attempt_argument_validation (obj_type sub_type s : String)
    (hok : typeCheckOk obj_type sub_type) :
    ((py_int_of_string s = none ∨ ∃ i, py_int_of_string s = some i ∧ i < 0) →
        get_object_validate obj_type sub_type (some s) =
          .error .InvalidAttempt ∧
        ∀ backend filters,
          get_object backend obj_type sub_type filters (some s) =
            .error .InvalidAttempt) ∧
    (∀ i, py_int_of_string s = some i → 0 ≤ i →
        ∃ v, get_object_validate obj_type sub_type (some s) = .ok v) ∧
    (∃ v, get_object_validate obj_type sub_type none = .ok v) := by
  obtain ⟨a, b, h1, h2, ha5, hab, hmeta⟩ := hok
  have hred : get_object_validate obj_type sub_type (some s) =
      (match py_int_of_string s with
       | none => Except.error GetObjectError.InvalidAttempt
       | some j =>
           if j < 0 then Except.error GetObjectError.InvalidAttempt
           else Except.ok (a, b, some j)) :=
    validate_reduce obj_type sub_type a b h1 h2 ha5 hab hmeta (some s)
  refine ⟨?_, ?_, ?_⟩
  · intro hbad
    have herr : get_object_validate obj_type sub_type (some s) =
        .error .InvalidAttempt := by
      rcases hbad with hnone | ⟨i, hp, hi⟩
      · rw [hred, hnone]
      · rw [hred, hp]
        show (if i < 0 then Except.error GetObjectError.InvalidAttempt
            else Except.ok (a, b, some i)) = Except.error GetObjectError.InvalidAttempt
        rw [if_pos hi]
    exact ⟨herr, fun backend filters => by unfold get_object; rw [herr]⟩
  · intro i hp hi
    refine ⟨(a, b, some i), ?_⟩
    rw [hred, hp]
    show (if i < 0 then Except.error GetObjectError.InvalidAttempt
        else Except.ok (a, b, some i)) = Except.ok (a, b, some i)
    rw [if_neg (by omega)]
  · exact ⟨(a, b, none), validate_reduce obj_type sub_type a b h1 h2 ha5 hab hmeta none⟩

/-- C5 witness: under `(task, metadata)` the attempt `"abc"` is rejected with
InvalidAttempt. -/
theorem attempt_argument_validation_witness :
    get_object_validate "task" "metadata" (some "abc") =
      Except.error GetObjectError.InvalidAttempt :=
  ((attempt_argument_validation "task" "metadata" "abc"
      ⟨4, 6, rfl, rfl, by omega, by omega, fun _ => rfl⟩).1 (Or.inl (by rfl))).1

/-! ### Sticky tags and record building -/

/-- Concrete provider state used by witnesses: a fresh provider for flow
`"F"` (empty sticky sets) after one `add_sticky_tags(tags=["env:prod"])`. -/
def exState0 : ProviderState := ⟨"F", [], []⟩

def exState1 : ProviderState := add_sticky_tags exState0 ["env:prod"] []

def exDatum : MetaDatum := ⟨"some-field", "v", "t", []⟩

def exArt : DataArtifact := ⟨"model", "s3", "rt", some "s3://b/k", "pickle", "sha1"⟩

/-- The metadata row `_metadata_to_json` builds from `exDatum` under
`exState1`. -/
def exMetaRow : MetadataJson :=
  ⟨"F", 1, "start", 2, "some-field", "t", "v", [], "u", 7⟩

/-- The artifact row `_artifacts_to_json` builds from `exArt` under
`exState1`. -/
def exArtRow : ArtifactJson :=
  ⟨1, "start", 2, 0, "model", "pickle", "metaflow.artifact", "sha1", "s3",
    "s3://b/k", "F", "u", ["env:prod"], [], 7⟩

/-- C4 counterexample: after `add_sticky_tags(tags=["env:prod"])` the sticky
set contains the tag, yet the metadata row built afterwards by
`_metadata_to_json` does not carry it — sticky tags are not applied to
metadata records. -/
theorem metadata_to_json_ignores_sticky_cex :
    "env:prod" ∈ exState1.sticky_tags ∧
    metadata_to_json exState1 "u" 7 1 "start" 2 [exDatum] = [exMetaRow] ∧
    "env:prod" ∉ exMetaRow.tags :=
  ⟨by decide, by rfl, by decide⟩

/-- C4 (amended): sticky tags are applied automatically to every artifact
record built after they were set, but not to metadata records: a metadata
row built by `_metadata_to_json` carries exactly the datum's own
(deduplicated) tags, whatever the sticky state. -/
theorem sticky_tags_artifact_records_only
    (s : ProviderState) (user : String) (now : Nat) (run_id : Int)
    (step_name : String) (task_id : Int) (attempt_id : Int)
    (arts : List DataArtifact) (ds : List MetaDatum) :
    (∀ a ∈ artifacts_to_json s user now run_id step_name task_id attempt_id arts,
      ∀ t ∈ s.sticky_tags, t ∈ a.tags) ∧
    (∀ r ∈ metadata_to_json s user now run_id step_name task_id ds,
      ∃ d ∈ ds, ∀ t, t ∈ r.tags ↔ t ∈ d.tags) := by
  constructor
  · intro a ha t ht
    obtain ⟨art, _, rfl⟩ := List.mem_map.1 ha
    exact ht
  · intro r hr
    obtain ⟨d, hd, rfl⟩ := List.mem_map.1 hr
    exact ⟨d, hd, fun t => List.mem_dedup⟩

/-- C4 amended witness: under `exState1` the artifact row carries
`env:prod` while the metadata row's tags coincide with the datum's own. -/
theorem sticky_tags_artifact_records_only_witness :
    "env:prod" ∈ exArtRow.tags ∧
    ∃ d ∈ [exDatum], ∀ t, t ∈ exMetaRow.tags ↔ t ∈ d.tags :=
  ⟨(sticky_tags_artifact_records_only exState1 "u" 7 1 "start" 2 0 [exArt] [exDatum]).1
      exArtRow (by decide) "env:prod" (by decide),
    (sticky_tags_artifact_records_only exState1 "u" 7 1 "start" 2 0 [exArt] [exDatum]).2
      exMetaRow (by decide)⟩

/-- C8: sticky-tag addition is prospective and append-only: a tag passed to
`add_sticky_tags` appears in the tag list of every artifact record built
afterwards; a tag not in the sticky set does not appear in artifact records
built before such an add; and `add_sticky_tags` never removes a member of
either sticky set. -/
theorem add_sticky_tags_prospective (s : ProviderState) (newTags newSys : List String)
    (t : String) (user : String) (now : Nat) (run_id : Int) (step_name : String)
    (task_id : Int) (attempt_id : Int) (arts : List DataArtifact) :
    (t ∈ newTags →
      ∀ a ∈ artifacts_to_json (add_sticky_tags s newTags newSys) user now run_id
          step_name task_id attempt_id arts, t ∈ a.tags) ∧
    (t ∉ s.sticky_tags →
      ∀ a ∈ artifacts_to_json s user now run_id step_name task_id attempt_id arts,
        t ∉ a.tags) ∧
    (∀ x ∈ s.sticky_tags, x ∈ (add_sticky_tags s newTags newSys).sticky_tags) ∧
    (∀ x ∈ s.sticky_sys_tags, x ∈ (add_sticky_tags s newTags newSys).sticky_sys_tags) := by
  refine ⟨?_, ?_, ?_, ?_⟩
  · intro ht a ha
    obtain ⟨art, _, rfl⟩ := List.mem_map.1 ha
    exact List.mem_append.2 (Or.inr ht)
  · intro ht a ha
    obtain ⟨art, _, rfl⟩ := List.mem_map.1 ha
    exact ht
  · intro x hx
    exact List.mem_append.2 (Or.inl hx)
  · intro x hx
    exact List.mem_append.2 (Or.inl hx)

/-- C8 witness: adding `env:prod` to a provider that lacked it makes the next
artifact row carry it, while a row built from the prior state does not. -/
theorem add_sticky_tags_prospective_witness :
    "env:prod" ∈ exArtRow.tags ∧
    "env:prod" ∉ (⟨1, "start", 2, 0, "model", "pickle", "metaflow.artifact", "sha1",
        "s3", "s3://b/k", "F", "u", [], [], 7⟩ : ArtifactJson).tags :=
  ⟨(add_sticky_tags_prospective exState0 ["env:prod"] [] "env:prod" "u" 7 1 "start"
        2 0 [exArt]).1 (by decide) exArtRow (by decide),
    (add_sticky_tags_prospective exState0 ["env:prod"] [] "env:prod" "u" 7 1 "start"
        2 0 [exArt]).2.1 (by decide) _ (by decide)⟩

end Metaflow
